import Mathlib

/-!
Shallow embedding of the `DualWaveGraph` / `SpeedMonitorApp` logic from
`monitor.py` (an internet speed monitor GUI).  Machine reals (Python floats)
are modelled by `ℚ`; timestamps (`datetime` values) are modelled by `ℚ`
seconds, since the code only ever subtracts them via `total_seconds()`.
Python values that may fail the `isinstance(x, (int, float))` check are
modelled by `PyVal`.
-/

set_option maxRecDepth 8000

namespace Monitor

/-- A Python value passed as the `download` / `upload` argument of
`DualWaveGraph.update`: either a number (`int`/`float`) or some
non-numeric object. -/
inductive PyVal where
  | num (q : ℚ)
  | other
deriving DecidableEq, Repr

/-- Python `isinstance(x, (int, float))`. -/
def isNumeric : PyVal → Bool
  | .num _ => true
  | .other => false

/-- Appending to a `collections.deque` with `maxlen = cap`: the element is
appended on the right and, if the length would exceed `cap`, elements are
discarded from the left. -/
def dequeAppend {α : Type} (cap : ℕ) (xs : List α) (x : α) : List α :=
  let ys := xs ++ [x]
  ys.drop (ys.length - cap)

/-- The mutable state of a `DualWaveGraph` widget (`monitor.py` lines
32-39): three parallel history buffers and the running maximum speed. -/
structure GraphState where
  timestamps : List ℚ
  download_data : List ℚ
  upload_data : List ℚ
  max_speed : ℚ
deriving DecidableEq, Repr

/-- `DualWaveGraph.clear_data` (lines 32-39): empty deques with
`maxlen = 300` and `max_speed = 1`. -/
def clear_data : GraphState :=
  { timestamps := [], download_data := [], upload_data := [], max_speed := 1 }

/-- `DualWaveGraph.update` (lines 53-64): non-numeric samples are dropped;
otherwise the sample is appended to the three deques and the vertical scale
becomes `max(self.max_speed, download, upload, 1)`. -/
def update (s : GraphState) (timestamp : ℚ) (download upload : PyVal) : GraphState :=
  match download, upload with
  | .num d, .num u =>
      { timestamps := dequeAppend 300 s.timestamps timestamp
        download_data := dequeAppend 300 s.download_data d
        upload_data := dequeAppend 300 s.upload_data u
        max_speed := max (max (max s.max_speed d) u) 1 }
  | _, _ => s

/-- One call to `DualWaveGraph.update`, as data. -/
structure Event where
  ts : ℚ
  dl : PyVal
  ul : PyVal

/-- A sequence of `update` calls applied to a graph state. -/
def runUpdates (s : GraphState) (evs : List Event) : GraphState :=
  evs.foldl (fun st e => update st e.ts e.dl e.ul) s

lemma length_dequeAppend {α : Type} (cap : ℕ) (xs : List α) (x : α) :
    (dequeAppend cap xs x).length = min (xs.length + 1) cap := by
  simp only [dequeAppend, List.length_drop, List.length_append, List.length_singleton]
  omega

lemma length_dequeAppend_le {α : Type} (cap : ℕ) (xs : List α) (x : α) :
    (dequeAppend cap xs x).length ≤ cap := by
  rw [length_dequeAppend]; omega

lemma dequeAppend_full {α : Type} (cap : ℕ) (xs : List α) (x : α)
    (h : xs.length = cap) (hc : 0 < cap) :
    dequeAppend cap xs x = xs.tail ++ [x] := by
  simp only [dequeAppend, List.length_append, List.length_singleton, h]
  rw [show cap + 1 - cap = 1 by omega]
  rw [List.drop_append_of_le_length (by omega), List.drop_one]

lemma runUpdates_length_le (evs : List Event) (s : GraphState)
    (ht : s.timestamps.length ≤ 300) (hd : s.download_data.length ≤ 300)
    (hu : s.upload_data.length ≤ 300) :
    (runUpdates s evs).timestamps.length ≤ 300 ∧
      (runUpdates s evs).download_data.length ≤ 300 ∧
      (runUpdates s evs).upload_data.length ≤ 300 := by
  induction evs generalizing s with
  | nil => exact ⟨ht, hd, hu⟩
  | cons e evs ih =>
      simp only [runUpdates, List.foldl_cons] at *
      apply ih
      all_goals {
        unfold update
        cases e.dl <;> cases e.ul <;>
          simp only [length_dequeAppend_le, ht, hd, hu]
      }

/-- Claim C1: the history buffers are fixed-capacity FIFOs of 300 samples:
for every sequence of `update` calls starting from `clear_data` the three
buffers never exceed 300 elements, and an accepted insertion into a full
(300-element) buffer evicts the oldest sample (the new buffer is the old
one's tail followed by the new sample). -/
theorem C1_history_fifo (evs : List Event) (s : GraphState) (t d u : ℚ)
    (ht : s.timestamps.length = 300) (hd : s.download_data.length = 300)
    (hu : s.upload_data.length = 300) :
    ((runUpdates clear_data evs).timestamps.length ≤ 300 ∧
      (runUpdates clear_data evs).download_data.length ≤ 300 ∧
      (runUpdates clear_data evs).upload_data.length ≤ 300) ∧
    ((update s t (PyVal.num d) (PyVal.num u)).timestamps = s.timestamps.tail ++ [t] ∧
      (update s t (PyVal.num d) (PyVal.num u)).download_data = s.download_data.tail ++ [d] ∧
      (update s t (PyVal.num d) (PyVal.num u)).upload_data = s.upload_data.tail ++ [u]) := by
  constructor
  · exact runUpdates_length_le evs clear_data (by simp [clear_data]) (by simp [clear_data])
      (by simp [clear_data])
  · refine ⟨?_, ?_, ?_⟩ <;>
      simp only [update, dequeAppend_full 300 _ _ ht (by omega),
        dequeAppend_full 300 _ _ hd (by omega), dequeAppend_full 300 _ _ hu (by omega)]

/-- A concrete full graph state: 300 samples in each buffer. -/
def fullGS : GraphState :=
  { timestamps := List.replicate 300 0
    download_data := List.replicate 300 0
    upload_data := List.replicate 300 0
    max_speed := 1 }

theorem C1_history_fifo_witness :
    (fullGS.timestamps.length = 300 ∧ fullGS.download_data.length = 300 ∧
      fullGS.upload_data.length = 300) ∧
    (((runUpdates clear_data []).timestamps.length ≤ 300 ∧
      (runUpdates clear_data []).download_data.length ≤ 300 ∧
      (runUpdates clear_data []).upload_data.length ≤ 300) ∧
    ((update fullGS 7 (PyVal.num 2) (PyVal.num 3)).timestamps = fullGS.timestamps.tail ++ [7] ∧
      (update fullGS 7 (PyVal.num 2) (PyVal.num 3)).download_data = fullGS.download_data.tail ++ [2] ∧
      (update fullGS 7 (PyVal.num 2) (PyVal.num 3)).upload_data = fullGS.upload_data.tail ++ [3])) :=
  ⟨⟨by simp [fullGS], by simp [fullGS], by simp [fullGS]⟩,
    C1_history_fifo [] fullGS 7 2 3 (by simp [fullGS]) (by simp [fullGS]) (by simp [fullGS])⟩

/-- The parts of `SpeedMonitorApp` state that `_toggle` (lines 238-252)
touches: the monitoring flag, the graph widget's state, and the complete
histories kept for export. -/
structure AppState where
  monitor : Bool
  graph : GraphState
  all_timestamps : List ℚ
  all_downloads : List ℚ
  all_uploads : List ℚ

/-- `SpeedMonitorApp._toggle` (lines 238-252): starting a session clears
the graph data and the export histories and sets the monitoring flag;
stopping clears the flag (`_stop`, lines 298-301). -/
def toggle (s : AppState) : AppState :=
  if s.monitor = false then
    { monitor := true
      graph := clear_data
      all_timestamps := []
      all_downloads := []
      all_uploads := [] }
  else
    { s with monitor := false }

/-- Claim C10: the three parallel buffers always have equal length after
any sequence of `update` calls starting from `clear_data` (accepted calls
append one element to each buffer, rejected calls append to none). -/
theorem C10_parallel_lengths (evs : List Event) :
    (runUpdates clear_data evs).timestamps.length =
      (runUpdates clear_data evs).download_data.length ∧
    (runUpdates clear_data evs).timestamps.length =
      (runUpdates clear_data evs).upload_data.length := by
  suffices h : ∀ (l : List Event) (s : GraphState),
      s.timestamps.length = s.download_data.length →
      s.timestamps.length = s.upload_data.length →
      (runUpdates s l).timestamps.length = (runUpdates s l).download_data.length ∧
      (runUpdates s l).timestamps.length = (runUpdates s l).upload_data.length by
    exact h evs clear_data (by simp [clear_data]) (by simp [clear_data])
  intro l
  induction l with
  | nil => intro s h1 h2; exact ⟨h1, h2⟩
  | cons e l ih =>
      intro s h1 h2
      simp only [runUpdates, List.foldl_cons] at *
      apply ih
      all_goals {
        unfold update
        cases e.dl <;> cases e.ul <;>
          simp only [length_dequeAppend, h1, h2] <;> omega
      }

/-- Claim C5: the running maximum is at least 1 after `clear_data` and after
every sequence of `update` calls, so the division `val / max_speed` in the
y-coordinate computation never divides by zero. -/
theorem C5_max_speed_never_zero (evs : List Event) :
    1 ≤ (runUpdates clear_data evs).max_speed ∧
      (runUpdates clear_data evs).max_speed ≠ 0 := by
  suffices h : ∀ (l : List Event) (s : GraphState), 1 ≤ s.max_speed →
      1 ≤ (runUpdates s l).max_speed by
    have h1 := h evs clear_data (by simp [clear_data])
    exact ⟨h1, by intro h0; rw [h0] at h1; norm_num at h1⟩
  intro l
  induction l with
  | nil => intro s hs; exact hs
  | cons e l ih =>
      intro s hs
      simp only [runUpdates, List.foldl_cons] at *
      apply ih
      unfold update
      cases e.dl <;> cases e.ul <;> simp only [le_max_iff, le_refl, or_true, hs, true_or]

/-- Claim C4: an accepted `update` sets the scale to
`max(max_speed, download, upload, 1)`, which is never below the old value,
and starting a monitoring session (`_toggle` with the flag off) resets the
graph state, so `max_speed` returns to its initial value of 1. -/
theorem C4_max_speed_monotone (s : GraphState) (t d u : ℚ) (a : AppState)
    (ha : a.monitor = false) :
    (update s t (PyVal.num d) (PyVal.num u)).max_speed =
      max (max (max s.max_speed d) u) 1 ∧
    s.max_speed ≤ (update s t (PyVal.num d) (PyVal.num u)).max_speed ∧
    (toggle a).graph.max_speed = clear_data.max_speed := by
  refine ⟨rfl, ?_, ?_⟩
  · simp only [update, le_max_iff, le_refl, true_or]
  · simp [toggle, ha]

/-- A concrete stopped application state with some leftover data. -/
def stoppedApp : AppState :=
  { monitor := false, graph := fullGS, all_timestamps := [0],
    all_downloads := [1], all_uploads := [2] }

theorem C4_max_speed_monotone_witness :
    stoppedApp.monitor = false ∧
    ((update clear_data 5 (PyVal.num 4) (PyVal.num 2)).max_speed =
      max (max (max clear_data.max_speed 4) 2) 1 ∧
    clear_data.max_speed ≤ (update clear_data 5 (PyVal.num 4) (PyVal.num 2)).max_speed ∧
    (toggle stoppedApp).graph.max_speed = clear_data.max_speed) :=
  ⟨rfl, C4_max_speed_monotone clear_data 5 4 2 stoppedApp rfl⟩

/-- Claim C8: an `update` call whose `download` or `upload` argument is not
numeric returns early and leaves the whole graph state (all three buffers
and `max_speed`) unchanged. -/
theorem C8_nonnumeric_dropped (s : GraphState) (t : ℚ) (d u : PyVal)
    (h : isNumeric d = false ∨ isNumeric u = false) :
    update s t d u = s := by
  cases d <;> cases u <;> simp_all [isNumeric, update]

theorem C8_nonnumeric_dropped_witness :
    (isNumeric PyVal.other = false ∨ isNumeric (PyVal.num 3) = false) ∧
      update fullGS 9 PyVal.other (PyVal.num 3) = fullGS :=
  ⟨Or.inl rfl, C8_nonnumeric_dropped fullGS 9 PyVal.other (PyVal.num 3) (Or.inl rfl)⟩

/-- The coordinate computation of `DualWaveGraph._draw_series` (lines
135-151): for each sample index `i` (over `n = len(data)`),
`x` is time-proportional between the first and last timestamp (collapsing
to the left margin when the total elapsed time is zero) and
`y = margin + (1 - val / max_speed) * (h - 2 * margin)`. -/
def mkPts (margin w h maxSpeed : ℚ) (timestamps data : List ℚ) : List (ℚ × ℚ) :=
  let start_time := timestamps.getD 0 0
  let end_time := timestamps.getD (timestamps.length - 1) 0
  let total_seconds := end_time - start_time
  (List.range data.length).map (fun i =>
    let ts := timestamps.getD i 0
    let val := data.getD i 0
    let x := if total_seconds = 0 then margin
      else margin + ((ts - start_time) / total_seconds) * (w - 2 * margin)
    let y := margin + (1 - val / maxSpeed) * (h - 2 * margin)
    (x, y))

lemma mkPts_getD (margin w h maxSpeed : ℚ) (timestamps data : List ℚ) (i : ℕ)
    (hi : i < data.length) :
    (mkPts margin w h maxSpeed timestamps data).getD i (0, 0) =
      ((if timestamps.getD (timestamps.length - 1) 0 - timestamps.getD 0 0 = 0 then margin
        else margin +
          ((timestamps.getD i 0 - timestamps.getD 0 0) /
            (timestamps.getD (timestamps.length - 1) 0 - timestamps.getD 0 0)) *
          (w - 2 * margin)),
       margin + (1 - data.getD i 0 / maxSpeed) * (h - 2 * margin)) := by
  have hlen : i < (mkPts margin w h maxSpeed timestamps data).length := by
    simp [mkPts, hi]
  rw [List.getD_eq_getElem _ _ hlen]
  simp [mkPts]

/-- Claim C2: a sample whose value equals the running maximum is drawn at
the top margin (`y = margin`); a sample of value 0 is drawn at the bottom
margin (`y = h - margin`). -/
theorem C2_y_extremes (margin w h maxSpeed : ℚ) (timestamps data : List ℚ)
    (i : ℕ) (hmax : 1 ≤ maxSpeed) (hi : i < data.length) :
    (data.getD i 0 = maxSpeed →
      ((mkPts margin w h maxSpeed timestamps data).getD i (0, 0)).2 = margin) ∧
    (data.getD i 0 = 0 →
      ((mkPts margin w h maxSpeed timestamps data).getD i (0, 0)).2 = h - margin) := by
  have hne : maxSpeed ≠ 0 := by intro h0; rw [h0] at hmax; norm_num at hmax
  rw [mkPts_getD margin w h maxSpeed timestamps data i hi]
  constructor
  · intro hv; rw [hv]
    field_simp
  · intro hv; rw [hv]
    ring

theorem C2_y_extremes_witness :
    ((1 : ℚ) ≤ 4 ∧ 1 < [0, 4].length) ∧
    (([0, 4].getD 1 0 = (4 : ℚ) →
      ((mkPts 10 640 480 4 [0, 5] [0, 4]).getD 1 (0, 0)).2 = 10) ∧
    ([0, 4].getD 1 0 = (0 : ℚ) →
      ((mkPts 10 640 480 4 [0, 5] [0, 4]).getD 1 (0, 0)).2 = 480 - 10)) :=
  ⟨⟨by norm_num, by norm_num⟩, C2_y_extremes 10 640 480 4 [0, 5] [0, 4] 1 (by norm_num) (by norm_num)⟩

/-- Claim C3: with at least two samples, each sample's x-coordinate is
interpolated proportionally to its elapsed time between the first and last
timestamp; when all timestamps are equal, every x-coordinate equals the
left margin. -/
theorem C3_x_time_proportional (margin w h maxSpeed : ℚ) (timestamps data : List ℚ)
    (i : ℕ) (hlen : timestamps.length = data.length) (h2 : 2 ≤ data.length)
    (hi : i < data.length) :
    (timestamps.getD (timestamps.length - 1) 0 - timestamps.getD 0 0 ≠ 0 →
      ((mkPts margin w h maxSpeed timestamps data).getD i (0, 0)).1 =
        margin +
          ((timestamps.getD i 0 - timestamps.getD 0 0) /
            (timestamps.getD (timestamps.length - 1) 0 - timestamps.getD 0 0)) *
          (w - 2 * margin)) ∧
    ((∀ x ∈ timestamps, x = timestamps.getD 0 0) →
      ((mkPts margin w h maxSpeed timestamps data).getD i (0, 0)).1 = margin) := by
  rw [mkPts_getD margin w h maxSpeed timestamps data i hi]
  constructor
  · intro hne
    simp only [if_neg hne]
  · intro hall
    have hlast : timestamps.getD (timestamps.length - 1) 0 = timestamps.getD 0 0 := by
      have hpos : timestamps.length - 1 < timestamps.length := by omega
      rw [List.getD_eq_getElem _ _ hpos]
      exact hall _ (List.getElem_mem hpos)
    rw [hlast]
    simp

theorem C3_x_time_proportional_witness :
    (([0, 5, 10] : List ℚ).length = ([3, 7, 2] : List ℚ).length ∧
      2 ≤ ([3, 7, 2] : List ℚ).length ∧ 1 < ([3, 7, 2] : List ℚ).length) ∧
    ((([0, 5, 10] : List ℚ).getD (([0, 5, 10] : List ℚ).length - 1) 0 - ([0, 5, 10] : List ℚ).getD 0 0 ≠ 0 →
      ((mkPts 10 640 480 7 [0, 5, 10] [3, 7, 2]).getD 1 (0, 0)).1 =
        10 + ((([0, 5, 10] : List ℚ).getD 1 0 - ([0, 5, 10] : List ℚ).getD 0 0) /
          (([0, 5, 10] : List ℚ).getD (([0, 5, 10] : List ℚ).length - 1) 0 -
            ([0, 5, 10] : List ℚ).getD 0 0)) * (640 - 2 * 10)) ∧
    ((∀ x ∈ ([0, 5, 10] : List ℚ), x = ([0, 5, 10] : List ℚ).getD 0 0) →
      ((mkPts 10 640 480 7 [0, 5, 10] [3, 7, 2]).getD 1 (0, 0)).1 = 10)) :=
  ⟨⟨by norm_num, by norm_num, by norm_num⟩,
    C3_x_time_proportional 10 640 480 7 [0, 5, 10] [3, 7, 2] 1 (by norm_num) (by norm_num)
      (by norm_num)⟩

/-- One coordinate of `DualWaveGraph._catmull_rom` (lines 107-119). -/
def cr1 (p0 p1 p2 p3 t : ℚ) : ℚ :=
  (1 / 2) * ((2 * p1) + (-p0 + p2) * t + (2 * p0 - 5 * p1 + 4 * p2 - p3) * (t * t) +
    (-p0 + 3 * p1 - 3 * p2 + p3) * (t * t * t))

/-- `DualWaveGraph._catmull_rom` (lines 107-119): Catmull-Rom spline
interpolation between 4 control points, evaluated componentwise. -/
def catmullRom (P0 P1 P2 P3 : ℚ × ℚ) (t : ℚ) : ℚ × ℚ :=
  (cr1 P0.1 P1.1 P2.1 P3.1 t, cr1 P0.2 P1.2 P2.2 P3.2 t)

/-- The curve construction loop of `_draw_series` (lines 153-163): for each
segment `i < n - 1`, 21 spline points at parameters `j / 20`, using the four
control points `pts[max(i-1,0)], pts[i], pts[i+1], pts[min(i+2,n-1)]`. -/
def buildCurve (pts : List (ℚ × ℚ)) : List (ℚ × ℚ) :=
  (List.range (pts.length - 1)).flatMap (fun (i : ℕ) =>
    (List.range 21).map (fun (j : ℕ) =>
      catmullRom (pts.getD (max (i - 1) 0) (0, 0)) (pts.getD i (0, 0))
        (pts.getD (i + 1) (0, 0)) (pts.getD (min (i + 2) (pts.length - 1)) (0, 0))
        ((j : ℚ) / 20)))

/-- The spline of segment `i` as a function of the parameter `t`: the
Catmull-Rom evaluation on the boundary-clamped control points used by the
loop in `_draw_series`. -/
def segEval (pts : List (ℚ × ℚ)) (i : ℕ) (t : ℚ) : ℚ × ℚ :=
  catmullRom (pts.getD (max (i - 1) 0) (0, 0)) (pts.getD i (0, 0))
    (pts.getD (i + 1) (0, 0)) (pts.getD (min (i + 2) (pts.length - 1)) (0, 0)) t

lemma flatMap_range_length {α : Type} (L m : ℕ) (f : ℕ → List α)
    (hL : ∀ k, (f k).length = L) :
    ((List.range m).flatMap f).length = m * L := by
  rw [List.length_flatMap]
  rw [show (List.length ∘ f) = Function.const ℕ L from funext fun k => hL k]
  rw [List.map_const, List.length_range, List.sum_replicate, smul_eq_mul]

lemma flatMap_range_getD {α : Type} (d : α) (L : ℕ) :
    ∀ (i m j : ℕ) (f : ℕ → List α), (∀ k, (f k).length = L) → i < m → j < L →
      ((List.range m).flatMap f).getD (L * i + j) d = (f i).getD j d := by
  intro i
  induction i with
  | zero =>
      intro m j f hL him hj
      obtain ⟨m', rfl⟩ : ∃ m', m = m' + 1 := ⟨m - 1, by omega⟩
      rw [List.range_succ_eq_map, List.flatMap_cons, Nat.mul_zero, Nat.zero_add]
      exact List.getD_append _ _ _ _ (by rw [hL 0]; exact hj)
  | succ i ih =>
      intro m j f hL him hj
      obtain ⟨m', rfl⟩ : ∃ m', m = m' + 1 := ⟨m - 1, by omega⟩
      rw [List.range_succ_eq_map, List.flatMap_cons]
      rw [List.getD_append_right _ _ _ _ (by rw [hL 0, Nat.mul_succ]; omega)]
      rw [hL 0, show L * (i + 1) + j - L = L * i + j by rw [Nat.mul_succ]; omega]
      have hmap : (List.map Nat.succ (List.range m')).flatMap f =
          (List.range m').flatMap (fun k => f (k + 1)) := by
        induction List.range m' with
        | nil => rfl
        | cons y ys ihy => simp only [List.map_cons, List.flatMap_cons, ihy, Nat.succ_eq_add_one]
      rw [hmap]
      exact ih m' j (fun k => f (k + 1)) (fun k => hL (k + 1)) (by omega) hj

/-- Claim C6: for `n ≥ 2` points, the generated curve has exactly 21 spline
points per segment (`21 * (n - 1)` in total), and the point at position
`21 * i + j` is the Catmull-Rom evaluation over the boundary-clamped control
points `pts[max(i-1,0)], pts[i], pts[i+1], pts[min(i+2,n-1)]` at `t = j / 20`. -/
theorem C6_catmull_segments (pts : List (ℚ × ℚ)) (i j : ℕ)
    (hn : 2 ≤ pts.length) (hi : i < pts.length - 1) (hj : j < 21) :
    (buildCurve pts).length = 21 * (pts.length - 1) ∧
    (buildCurve pts).getD (21 * i + j) (0, 0) = segEval pts i ((j : ℚ) / 20) := by
  have hL : ∀ k, ((List.range 21).map (fun (j : ℕ) =>
      catmullRom (pts.getD (max (k - 1) 0) (0, 0)) (pts.getD k (0, 0))
        (pts.getD (k + 1) (0, 0)) (pts.getD (min (k + 2) (pts.length - 1)) (0, 0))
        ((j : ℚ) / 20))).length = 21 := by
    intro k; rw [List.length_map, List.length_range]
  constructor
  · rw [buildCurve, flatMap_range_length 21 _ _ hL, Nat.mul_comm]
  · rw [buildCurve, flatMap_range_getD (0, 0) 21 i (pts.length - 1) j _ hL hi hj]
    rw [List.getD_eq_getElem _ _ (by rw [List.length_map, List.length_range]; exact hj)]
    rw [List.getElem_map, List.getElem_range]
    rfl

theorem C6_catmull_segments_witness :
    (2 ≤ ([(0, 0), (10, 5), (20, 0)] : List (ℚ × ℚ)).length ∧
      1 < ([(0, 0), (10, 5), (20, 0)] : List (ℚ × ℚ)).length - 1 ∧ 20 < 21) ∧
    ((buildCurve [(0, 0), (10, 5), (20, 0)]).length =
      21 * (([(0, 0), (10, 5), (20, 0)] : List (ℚ × ℚ)).length - 1) ∧
    (buildCurve [(0, 0), (10, 5), (20, 0)]).getD (21 * 1 + 20) (0, 0) =
      segEval [(0, 0), (10, 5), (20, 0)] 1 ((20 : ℕ) / 20)) :=
  ⟨⟨by norm_num, by norm_num, by norm_num⟩,
    C6_catmull_segments [(0, 0), (10, 5), (20, 0)] 1 20 (by norm_num) (by norm_num)
      (by norm_num)⟩

lemma cr1_zero (p0 p1 p2 p3 : ℚ) : cr1 p0 p1 p2 p3 0 = p1 := by
  unfold cr1; ring

lemma cr1_one (p0 p1 p2 p3 : ℚ) : cr1 p0 p1 p2 p3 1 = p2 := by
  unfold cr1; ring

lemma cr1_sub (p0 p1 p2 p3 t h : ℚ) :
    cr1 p0 p1 p2 p3 (t + h) - cr1 p0 p1 p2 p3 t =
      (h / 2) * (((p1 - p0) + (p2 - p1)) +
        (-2 * (p1 - p0) + 3 * (p2 - p1) - (p3 - p2)) * (2 * t + h) +
        ((p1 - p0) - 2 * (p2 - p1) + (p3 - p2)) * (3 * t ^ 2 + 3 * t * h + h ^ 2)) := by
  unfold cr1; ring

lemma lin_bound (x y z u v : ℚ) (hu0 : 0 ≤ u) (hu2 : u ≤ 2) (hv0 : 0 ≤ v) (hv3 : v ≤ 3) :
    |x + y * u + z * v| ≤ |x| + 2 * |y| + 3 * |z| := by
  have h1 : |x + y * u + z * v| ≤ |x + y * u| + |z * v| := abs_add _ _
  have h2 : |x + y * u| ≤ |x| + |y * u| := abs_add _ _
  have h3 : |y * u| ≤ 2 * |y| := by
    rw [abs_mul, abs_of_nonneg hu0]
    nlinarith [abs_nonneg y]
  have h4 : |z * v| ≤ 3 * |z| := by
    rw [abs_mul, abs_of_nonneg hv0]
    nlinarith [abs_nonneg z]
  linarith

lemma cr1_delta_bound (p0 p1 p2 p3 t h : ℚ) (ht : 0 ≤ t) (hh : 0 ≤ h)
    (hth : t + h ≤ 1) :
    |cr1 p0 p1 p2 p3 (t + h) - cr1 p0 p1 p2 p3 t| ≤
      7 * h * (|p1 - p0| + |p2 - p1| + |p3 - p2|) := by
  rw [cr1_sub, abs_mul, abs_of_nonneg (show (0 : ℚ) ≤ h / 2 by linarith)]
  set a := p1 - p0 with ha
  set b := p2 - p1 with hb
  set c := p3 - p2 with hc
  have hu0 : (0 : ℚ) ≤ 2 * t + h := by linarith
  have hu2 : 2 * t + h ≤ 2 := by linarith
  have hv0 : (0 : ℚ) ≤ 3 * t ^ 2 + 3 * t * h + h ^ 2 := by
    nlinarith [mul_nonneg ht hh, sq_nonneg t, sq_nonneg h]
  have hv3 : 3 * t ^ 2 + 3 * t * h + h ^ 2 ≤ 3 := by
    nlinarith [mul_nonneg (show (0 : ℚ) ≤ 1 - (t + h) by linarith)
      (show (0 : ℚ) ≤ 1 + (t + h) by linarith), mul_nonneg ht hh, sq_nonneg h]
  have hlin := lin_bound (a + b) (-2 * a + 3 * b - c) (a - 2 * b + c)
    (2 * t + h) (3 * t ^ 2 + 3 * t * h + h ^ 2) hu0 hu2 hv0 hv3
  have hA : |a + b| ≤ |a| + |b| := abs_add a b
  have hY : |-2 * a + 3 * b - c| ≤ 2 * |a| + 3 * |b| + |c| := by
    rw [abs_le]
    constructor <;>
      linarith [le_abs_self a, neg_abs_le a, le_abs_self b, neg_abs_le b,
        le_abs_self c, neg_abs_le c]
  have hZ : |a - 2 * b + c| ≤ |a| + 2 * |b| + |c| := by
    rw [abs_le]
    constructor <;>
      linarith [le_abs_self a, neg_abs_le a, le_abs_self b, neg_abs_le b,
        le_abs_self c, neg_abs_le c]
  calc h / 2 * |(a + b) + (-2 * a + 3 * b - c) * (2 * t + h) +
        (a - 2 * b + c) * (3 * t ^ 2 + 3 * t * h + h ^ 2)| ≤
      h / 2 * (|a + b| + 2 * |-2 * a + 3 * b - c| + 3 * |a - 2 * b + c|) :=
        mul_le_mul_of_nonneg_left hlin (by linarith)
    _ ≤ h / 2 * ((|a| + |b|) + 2 * (2 * |a| + 3 * |b| + |c|) +
          3 * (|a| + 2 * |b| + |c|)) :=
        mul_le_mul_of_nonneg_left (by linarith) (by linarith)
    _ ≤ 7 * h * (|a| + |b| + |c|) := by
        nlinarith [mul_nonneg hh (abs_nonneg a), mul_nonneg hh (abs_nonneg b),
          mul_nonneg hh (abs_nonneg c)]

/-- Claim C7: adjacent subdivided points of a segment differ by a delta
bounded proportionally to that segment's control-point spacing
(componentwise, by `7/20` times the sum of the control-point gaps), and the
spline of segment `i` at `t = 1` coincides with the spline of segment
`i + 1` at `t = 0` (both equal `pts[i+1]`), so the generated curve is
continuous across segments. -/
theorem C7_curve_continuity (pts : List (ℚ × ℚ)) (i j : ℕ)
    (hi : i < pts.length - 1) (hj : j < 20) :
    (|(segEval pts i (((j : ℚ) + 1) / 20)).1 - (segEval pts i ((j : ℚ) / 20)).1| ≤
        (7 / 20) * (|(pts.getD i (0, 0)).1 - (pts.getD (max (i - 1) 0) (0, 0)).1| +
          |(pts.getD (i + 1) (0, 0)).1 - (pts.getD i (0, 0)).1| +
          |(pts.getD (min (i + 2) (pts.length - 1)) (0, 0)).1 -
            (pts.getD (i + 1) (0, 0)).1|) ∧
      |(segEval pts i (((j : ℚ) + 1) / 20)).2 - (segEval pts i ((j : ℚ) / 20)).2| ≤
        (7 / 20) * (|(pts.getD i (0, 0)).2 - (pts.getD (max (i - 1) 0) (0, 0)).2| +
          |(pts.getD (i + 1) (0, 0)).2 - (pts.getD i (0, 0)).2| +
          |(pts.getD (min (i + 2) (pts.length - 1)) (0, 0)).2 -
            (pts.getD (i + 1) (0, 0)).2|)) ∧
    (segEval pts i 1 = pts.getD (i + 1) (0, 0) ∧
      segEval pts (i + 1) 0 = pts.getD (i + 1) (0, 0)) := by
  have hcast : ((j : ℚ) + 1) / 20 = (j : ℚ) / 20 + 1 / 20 := by ring
  have ht : (0 : ℚ) ≤ (j : ℚ) / 20 := by positivity
  have hj19 : (j : ℚ) ≤ 19 := by exact_mod_cast Nat.lt_succ_iff.mp hj
  have hth : (j : ℚ) / 20 + 1 / 20 ≤ 1 := by linarith
  refine ⟨⟨?_, ?_⟩, ?_, ?_⟩
  · have hb := cr1_delta_bound (pts.getD (max (i - 1) 0) (0, 0)).1 (pts.getD i (0, 0)).1
      (pts.getD (i + 1) (0, 0)).1 (pts.getD (min (i + 2) (pts.length - 1)) (0, 0)).1
      ((j : ℚ) / 20) (1 / 20) ht (by norm_num) hth
    rw [hcast]
    show |cr1 _ _ _ _ ((j : ℚ) / 20 + 1 / 20) - cr1 _ _ _ _ ((j : ℚ) / 20)| ≤ _
    calc |cr1 _ _ _ _ ((j : ℚ) / 20 + 1 / 20) - cr1 _ _ _ _ ((j : ℚ) / 20)| ≤
        7 * (1 / 20) * (|(pts.getD i (0, 0)).1 - (pts.getD (max (i - 1) 0) (0, 0)).1| +
          |(pts.getD (i + 1) (0, 0)).1 - (pts.getD i (0, 0)).1| +
          |(pts.getD (min (i + 2) (pts.length - 1)) (0, 0)).1 -
            (pts.getD (i + 1) (0, 0)).1|) := hb
      _ = (7 / 20) * _ := by ring
  · have hb := cr1_delta_bound (pts.getD (max (i - 1) 0) (0, 0)).2 (pts.getD i (0, 0)).2
      (pts.getD (i + 1) (0, 0)).2 (pts.getD (min (i + 2) (pts.length - 1)) (0, 0)).2
      ((j : ℚ) / 20) (1 / 20) ht (by norm_num) hth
    rw [hcast]
    show |cr1 _ _ _ _ ((j : ℚ) / 20 + 1 / 20) - cr1 _ _ _ _ ((j : ℚ) / 20)| ≤ _
    calc |cr1 _ _ _ _ ((j : ℚ) / 20 + 1 / 20) - cr1 _ _ _ _ ((j : ℚ) / 20)| ≤
        7 * (1 / 20) * (|(pts.getD i (0, 0)).2 - (pts.getD (max (i - 1) 0) (0, 0)).2| +
          |(pts.getD (i + 1) (0, 0)).2 - (pts.getD i (0, 0)).2| +
          |(pts.getD (min (i + 2) (pts.length - 1)) (0, 0)).2 -
            (pts.getD (i + 1) (0, 0)).2|) := hb
      _ = (7 / 20) * _ := by ring
  · show (cr1 _ _ _ _ 1, cr1 _ _ _ _ 1) = _
    rw [cr1_one, cr1_one]
  · show (cr1 _ _ _ _ 0, cr1 _ _ _ _ 0) = _
    rw [cr1_zero, cr1_zero]

/-- A concrete three-point polyline. -/
def pts3 : List (ℚ × ℚ) := [(0, 0), (10, 5), (20, 0)]

theorem C7_curve_continuity_witness :
    (0 < pts3.length - 1 ∧ 19 < 20) ∧
    ((|(segEval pts3 0 ((((19 : ℕ) : ℚ) + 1) / 20)).1 - (segEval pts3 0 (((19 : ℕ) : ℚ) / 20)).1| ≤
        (7 / 20) * (|(pts3.getD 0 (0, 0)).1 - (pts3.getD (max (0 - 1) 0) (0, 0)).1| +
          |(pts3.getD (0 + 1) (0, 0)).1 - (pts3.getD 0 (0, 0)).1| +
          |(pts3.getD (min (0 + 2) (pts3.length - 1)) (0, 0)).1 -
            (pts3.getD (0 + 1) (0, 0)).1|) ∧
      |(segEval pts3 0 ((((19 : ℕ) : ℚ) + 1) / 20)).2 - (segEval pts3 0 (((19 : ℕ) : ℚ) / 20)).2| ≤
        (7 / 20) * (|(pts3.getD 0 (0, 0)).2 - (pts3.getD (max (0 - 1) 0) (0, 0)).2| +
          |(pts3.getD (0 + 1) (0, 0)).2 - (pts3.getD 0 (0, 0)).2| +
          |(pts3.getD (min (0 + 2) (pts3.length - 1)) (0, 0)).2 -
            (pts3.getD (0 + 1) (0, 0)).2|)) ∧
    (segEval pts3 0 1 = pts3.getD (0 + 1) (0, 0) ∧
      segEval pts3 (0 + 1) 0 = pts3.getD (0 + 1) (0, 0))) :=
  ⟨⟨by norm_num [pts3], by norm_num⟩,
    C7_curve_continuity pts3 0 19 (by norm_num [pts3]) (by norm_num)⟩

/-- A natural number below 100 rendered as two decimal digit characters. -/
def twoDigits (n : ℕ) : String :=
  String.mk [Nat.digitChar (n / 10 % 10), Nat.digitChar (n % 10)]

/-- Python's fixed-point rendering `f"{q:.2f}"`: the value rounded to a
whole number of hundredths, printed with exactly two digits after the
decimal point. -/
def fmt2 (q : ℚ) : String :=
  let c : ℤ := round (q * 100)
  let sign := if c < 0 then "-" else ""
  let n := c.natAbs
  sign ++ Nat.repr (n / 100) ++ "." ++ twoDigits n

/-- A natural number rendered as at least two digits (zero padded), as in
`strftime` time fields. -/
def pad2 (n : ℕ) : String :=
  if n < 10 then "0" ++ Nat.repr n else Nat.repr n

/-- `ts.strftime("%H:%M:%S")` for a timestamp modelled as rational seconds. -/
def fmtHMS (t : ℚ) : String :=
  let s := (⌊t⌋).toNat
  pad2 (s / 3600 % 24) ++ ":" ++ pad2 (s / 60 % 60) ++ ":" ++ pad2 (s % 60)

/-- The lines written by `SpeedMonitorApp._export` (lines 303-326): the
header, then one `time,download,upload` row per element of
`zip(all_timestamps, all_downloads, all_uploads)`, speeds rendered with
`:.2f`. -/
def exportLines (all_timestamps all_downloads all_uploads : List ℚ) : List String :=
  "Time,Download (Mbps),Upload (Mbps)" ::
    (all_timestamps.zip (all_downloads.zip all_uploads)).map
      (fun r => fmtHMS r.1 ++ "," ++ fmt2 r.2.1 ++ "," ++ fmt2 r.2.2)

lemma digitChar_isDigit (n : ℕ) (h : n < 10) : (Nat.digitChar n).isDigit = true := by
  interval_cases n <;> rfl

lemma fmt2_twoDecimals (q : ℚ) :
    ∃ a d1 d2, fmt2 q = a ++ "." ++ String.mk [d1, d2] ∧
      d1.isDigit = true ∧ d2.isDigit = true := by
  refine ⟨(if round (q * 100) < 0 then "-" else "") ++
    Nat.repr ((round (q * 100)).natAbs / 100),
    Nat.digitChar ((round (q * 100)).natAbs / 10 % 10),
    Nat.digitChar ((round (q * 100)).natAbs % 10), ?_, ?_, ?_⟩
  · rfl
  · exact digitChar_isDigit _ (Nat.mod_lt _ (by norm_num))
  · exact digitChar_isDigit _ (Nat.mod_lt _ (by norm_num))

/-- Claim C9: the exported file is the header
`Time,Download (Mbps),Upload (Mbps)` followed by exactly one row per
retained sample, each row being the formatted time and the two speeds, and
every speed field ends in a decimal point followed by exactly two digits. -/
theorem C9_export_format (all_timestamps all_downloads all_uploads : List ℚ)
    (h1 : all_downloads.length = all_timestamps.length)
    (h2 : all_uploads.length = all_timestamps.length) :
    (exportLines all_timestamps all_downloads all_uploads).length =
      all_timestamps.length + 1 ∧
    (exportLines all_timestamps all_downloads all_uploads).headD "" =
      "Time,Download (Mbps),Upload (Mbps)" ∧
    (∀ i, i < all_timestamps.length →
      (exportLines all_timestamps all_downloads all_uploads).getD (i + 1) "" =
        fmtHMS (all_timestamps.getD i 0) ++ "," ++ fmt2 (all_downloads.getD i 0) ++
          "," ++ fmt2 (all_uploads.getD i 0)) ∧
    (∀ q : ℚ, ∃ a d1 d2, fmt2 q = a ++ "." ++ String.mk [d1, d2] ∧
      d1.isDigit = true ∧ d2.isDigit = true) := by
  have hzlen : (all_timestamps.zip (all_downloads.zip all_uploads)).length =
      all_timestamps.length := by
    rw [List.length_zip, List.length_zip, h1, h2]
    omega
  refine ⟨?_, rfl, ?_, fmt2_twoDecimals⟩
  · simp only [exportLines, List.length_cons, List.length_map, hzlen]
  · intro i hi
    have hiz : i < (all_timestamps.zip (all_downloads.zip all_uploads)).length := by
      rw [hzlen]; exact hi
    simp only [exportLines, List.getD_cons_succ]
    rw [List.getD_eq_getElem _ _ (by rw [List.length_map]; exact hiz)]
    rw [List.getElem_map]
    rw [List.getElem_zip, List.getElem_zip]
    rw [List.getD_eq_getElem _ _ hi, List.getD_eq_getElem _ _ (by rw [h1]; exact hi),
      List.getD_eq_getElem _ _ (by rw [h2]; exact hi)]

theorem C9_export_format_witness :
    (([4, 9] : List ℚ).length = ([61, 61] : List ℚ).length ∧
      ([0.125, 2] : List ℚ).length = ([61, 61] : List ℚ).length) ∧
    ((exportLines [61, 61] [4, 9] [0.125, 2]).length = ([61, 61] : List ℚ).length + 1 ∧
    (exportLines [61, 61] [4, 9] [0.125, 2]).headD "" =
      "Time,Download (Mbps),Upload (Mbps)" ∧
    (∀ i, i < ([61, 61] : List ℚ).length →
      (exportLines [61, 61] [4, 9] [0.125, 2]).getD (i + 1) "" =
        fmtHMS (([61, 61] : List ℚ).getD i 0) ++ "," ++
          fmt2 (([4, 9] : List ℚ).getD i 0) ++ "," ++
          fmt2 (([0.125, 2] : List ℚ).getD i 0)) ∧
    (∀ q : ℚ, ∃ a d1 d2, fmt2 q = a ++ "." ++ String.mk [d1, d2] ∧
      d1.isDigit = true ∧ d2.isDigit = true)) :=
  ⟨⟨by norm_num, by norm_num⟩,
    C9_export_format [61, 61] [4, 9] [0.125, 2] (by norm_num) (by norm_num)⟩

end Monitor
